import Mathlib

/-!
Verification of the vCard property layer (`src/property.rs`, `src/error.rs`).

The Rust code is shallowly embedded: strings that are only compared for
equality are Lean `String`s; `UtcOffsetProperty::from_str`, which slices its
input by byte index, works on the UTF-8 byte sequence, embedded as
`List Nat`.  Fallible Rust functions return `Except Error` and the
potentially panicking UTC-offset parser returns a three-way outcome that
makes the panic explicit.
-/

namespace VCard4

/-- Subset of `Error` (src/error.rs) reachable from the embedded functions.
`InvalidUtcOffset` stores the offending input (kept as bytes here, matching
the byte-level embedding of the UTC-offset parser); `ParseInt` and
`ComponentRange` stand for the delegated `std::num::ParseIntError` and
`time::error::ComponentRange` wrappers, whose payloads the claims never
inspect. -/
inductive Error where
  | InvalidUtcOffset (bytes : List Nat)
  | ParseInt
  | ComponentRange
  | UnknownKind (s : String)
  | UnknownSex (s : String)
  | NoSex
  deriving DecidableEq

/-- Modelled from the spec: the parameter collection (src/parameter.rs is not
part of the visible source).  None of the verified claims inspects
parameters, so the collection is opaque. -/
inductive Parameters where
  | mk
  deriving DecidableEq

/-! ## time::UtcOffset (external collaborator of src/property.rs) -/

/-- Modelled from the `time` crate (v0.3): a `UtcOffset` stores its hour,
minute and second components as signed integers.  The crate guarantees
`|hours| ≤ 25`, `|minutes| ≤ 59`, `|seconds| ≤ 59` and matching signs for
every value it constructs. -/
structure UtcOffset where
  hours : Int
  minutes : Int
  seconds : Int
  deriving DecidableEq

/-- Modelled from the `time` crate (v0.3): `UtcOffset::from_hms` rejects
components out of range, flips the sign of the smaller components to match
the larger ones, and stores the triple. -/
def UtcOffset.from_hms (hours minutes seconds : Int) : Except Error UtcOffset :=
  if hours < -25 ∨ 25 < hours then .error .ComponentRange
  else if minutes < -59 ∨ 59 < minutes then .error .ComponentRange
  else if seconds < -59 ∨ 59 < seconds then .error .ComponentRange
  else
    let m2 : Int :=
      if (0 < hours ∧ minutes < 0) ∨ (hours < 0 ∧ 0 < minutes) then -minutes
      else minutes
    let s2 : Int :=
      if (0 < hours ∧ seconds < 0) ∨ (hours < 0 ∧ 0 < seconds)
          ∨ (0 < m2 ∧ seconds < 0) ∨ (m2 < 0 ∧ 0 < seconds) then -seconds
      else seconds
    .ok ⟨hours, m2, s2⟩

/-- `UtcOffset::as_hms` returns the stored components. -/
def UtcOffset.as_hms (o : UtcOffset) : Int × Int × Int :=
  (o.hours, o.minutes, o.seconds)

/-- Total number of seconds of the offset; the offset is negative exactly
when this is negative. -/
def UtcOffset.totalSeconds (o : UtcOffset) : Int :=
  o.hours * 3600 + o.minutes * 60 + o.seconds

/-! ## UtcOffsetProperty (src/property.rs lines 288-348) -/

/-- `UtcOffsetProperty` (src/property.rs line 292). -/
structure UtcOffsetProperty where
  group : Option String
  value : UtcOffset
  parameters : Option Parameters
  deriving DecidableEq

/-- ASCII decimal digit test, `b` is a byte. -/
def isDigitByte (b : Nat) : Bool := 48 ≤ b && b ≤ 57

/-- Value of a list of ASCII digit bytes read in base 10. -/
def digitsVal (l : List Nat) : Nat :=
  l.foldl (fun acc d => 10 * acc + (d - 48)) 0

/-- Rust `i8::from_str`: an optional leading sign followed by one or more
ASCII digits, rejecting values outside `-128..=127`. -/
def parseI8 (s : List Nat) : Option Int :=
  match s with
  | [] => none
  | c :: rest =>
    let signAndDigits : Bool × List Nat :=
      if c = 43 then (false, rest)
      else if c = 45 then (true, rest)
      else (false, c :: rest)
    match signAndDigits with
    | (neg, digits) =>
      if digits.isEmpty then none
      else if digits.all isDigitByte then
        let v : Int := if neg then -(digitsVal digits : Int) else (digitsVal digits : Int)
        if -128 ≤ v ∧ v ≤ 127 then some v else none
      else none

/-- A byte that is a UTF-8 continuation byte; slicing a Rust `&str` at an
index holding such a byte panics (the index is not a char boundary). -/
def contByte (b : Nat) : Bool := 128 ≤ b && b < 192

/-- Outcome of `UtcOffsetProperty::from_str`, with the possible panic of the
byte-index slicing made explicit. -/
inductive ParseOutcome where
  | ok (p : UtcOffsetProperty)
  | err (e : Error)
  | panic
  deriving DecidableEq

/-- Whether the outcome is a successful parse. -/
def ParseOutcome.isOk : ParseOutcome → Bool
  | .ok _ => true
  | _ => false

/-- `UtcOffsetProperty::from_str` (src/property.rs lines 322-348) on the
UTF-8 bytes of the input.  `&s[0..1]` panics when byte 1 starts inside a
character; `&s[1..3]` panics when byte 3 does (byte 5 is the end of the
string, always a boundary). -/
def UtcOffsetProperty.from_str (s : List Nat) : ParseOutcome :=
  if s.length = 5 then
    if contByte (s.getD 1 0) then .panic
    else if s.take 1 ≠ [43] ∧ s.take 1 ≠ [45] then .err (.InvalidUtcOffset s)
    else if contByte (s.getD 3 0) then .panic
    else
      match parseI8 ((s.drop 1).take 2) with
      | none => .err .ParseInt
      | some hv =>
        match parseI8 ((s.drop 3).take 2) with
        | none => .err .ParseInt
        | some mv =>
          match UtcOffset.from_hms (if s.take 1 = [45] then -hv else hv)
              (if s.take 1 = [45] then -mv else mv) 0 with
          | .error e => .err e
          | .ok off => .ok ⟨none, off, none⟩
  else .err (.InvalidUtcOffset s)

/-- Decimal digits (as ASCII bytes) of a natural number, the rendering of
Rust `to_string` on a non-negative integer. -/
def natDecimalBytes (n : Nat) : List Nat := (Nat.repr n).data.map Char.toNat

/-- `Display for UtcOffsetProperty` (src/property.rs lines 302-320), as the
UTF-8 bytes of the rendered string: a sign (`+` when the hour component is
non-negative), then the absolute hour zero-padded when below 10, then the
absolute minute likewise. -/
def UtcOffsetProperty.display (p : UtcOffsetProperty) : List Nat :=
  match p.value.as_hms with
  | (h, m, _) =>
    let sign : Nat := if 0 ≤ h then 43 else 45
    let ha := h.natAbs
    let ma := m.natAbs
    let hb := if ha < 10 then 48 :: natDecimalBytes ha else natDecimalBytes ha
    let mb := if ma < 10 then 48 :: natDecimalBytes ma else natDecimalBytes ma
    sign :: (hb ++ mb)

/-- Defined from the spec's words for claim C2: the pattern
`[+-]\d\{2\}\d\{2\}` over the bytes of the input, exactly 5 characters. -/
def specUtcOffsetPattern (s : List Nat) : Bool :=
  s.length == 5
    && (s.getD 0 0 == 43 || s.getD 0 0 == 45)
    && isDigitByte (s.getD 1 0) && isDigitByte (s.getD 2 0)
    && isDigitByte (s.getD 3 0) && isDigitByte (s.getD 4 0)

/-- Reserialization of a successfully parsed UTC-offset input, the
composition the round-trip claim C1 is about. -/
def utcOffsetReserialize (s : List Nat) : Option (List Nat) :=
  match UtcOffsetProperty.from_str s with
  | .ok p => some p.display
  | _ => none

/-! ## Kind (src/property.rs lines 450-494) -/

/-- `Kind` (src/property.rs line 454). -/
inductive Kind where
  | Individual
  | Group
  | Org
  | Location
  deriving DecidableEq

/-- `Kind::from_str` (src/property.rs lines 482-494): a Rust `match` on the
exact string. -/
def Kind.from_str (s : String) : Except Error Kind :=
  if s = "individual" then .ok .Individual
  else if s = "group" then .ok .Group
  else if s = "org" then .ok .Org
  else if s = "location" then .ok .Location
  else .error (.UnknownKind s)

/-- Defined from the spec's words for claim C5: the kind table as an
association list keyed by the lowercase tokens. -/
def specKindTable : List (String × Kind) :=
  [("individual", .Individual), ("group", .Group),
   ("org", .Org), ("location", .Location)]

/-! ## Sex and Gender (src/property.rs lines 496-606) -/

/-- `Sex` (src/property.rs line 560). -/
inductive Sex where
  | None
  | Male
  | Female
  | Other
  | NotApplicable
  | Unknown
  deriving DecidableEq

/-- `Sex::from_str` (src/property.rs lines 592-606). -/
def Sex.from_str (s : String) : Except Error Sex :=
  if s = "" then .ok .None
  else if s = "M" then .ok .Male
  else if s = "F" then .ok .Female
  else if s = "O" then .ok .Other
  else if s = "N" then .ok .NotApplicable
  else if s = "U" then .ok .Unknown
  else .error (.UnknownSex s)

/-- Defined from the spec's words for claim C6: the sex table as an
association list (empty string permitted, single uppercase letters). -/
def specSexTable : List (String × Sex) :=
  [("", .None), ("M", .Male), ("F", .Female), ("O", .Other),
   ("N", .NotApplicable), ("U", .Unknown)]

/-- `Gender` (src/property.rs line 513). -/
structure Gender where
  sex : Sex
  identity : Option String
  deriving DecidableEq

/-- Rust `str::splitn(2, ";")` viewed on the character list: the part before
the first semicolon, and the rest after it when a semicolon exists. -/
def breakSemi : List Char → List Char × Option (List Char)
  | [] => ([], none)
  | c :: cs =>
    if c = ';' then ([], some cs)
    else
      match breakSemi cs with
      | (p, r) => (c :: p, r)

/-- Rust `s.splitn(2, ";")` collected into a list (one element when `s` has
no semicolon, two otherwise). -/
def splitnTwoSemi (s : String) : List String :=
  match breakSemi s.data with
  | (p, none) => [⟨p⟩]
  | (p, some r) => [⟨p⟩, ⟨r⟩]

/-- `Gender::from_str` (src/property.rs lines 530-554): empty input is sex
`None` with no identity; otherwise `splitn(2, ";")`, the first piece parsed
as `Sex` (its absence would be `Error::NoSex`), the second piece, when
present, stored verbatim as the identity. -/
def Gender.from_str (s : String) : Except Error Gender :=
  if s = "" then .ok ⟨Sex.None, none⟩
  else
    match splitnTwoSemi s with
    | [] => .error .NoSex
    | sexStr :: rest =>
      match Sex.from_str sexStr with
      | .error e => .error e
      | .ok sx =>
        match rest with
        | [] => .ok ⟨sx, none⟩
        | identity :: _ => .ok ⟨sx, some identity⟩

/-- Whether a gender parse result is the `NoSex` error (claim C10). -/
def isNoSexError : Except Error Gender → Bool
  | .error .NoSex => true
  | _ => false

/-- Defined from the spec's words for claim C7: split at the first
semicolon using takeWhile/dropWhile, parse the prefix as a sex, keep the
remainder after the semicolon (when one exists) verbatim as the identity. -/
def specGenderFromStr (s : String) : Except Error Gender :=
  if s = "" then .ok ⟨Sex.None, none⟩
  else
    let pre : List Char := s.data.takeWhile (fun c => ¬ (c = ';'))
    let rest : List Char := s.data.dropWhile (fun c => ¬ (c = ';'))
    match Sex.from_str ⟨pre⟩ with
    | .error e => .error e
    | .ok sx =>
      match rest with
      | [] => .ok ⟨sx, none⟩
      | _ :: after => .ok ⟨sx, some ⟨after⟩⟩

/-! ## TextListProperty (src/property.rs lines 404-421) -/

/-- `TextListProperty` (src/property.rs line 408). -/
structure TextListProperty where
  group : Option String
  value : List String
  parameters : Option Parameters
  deriving DecidableEq

/-- `Display for TextListProperty` (src/property.rs lines 417-421):
`self.value.join(",")`. -/
def TextListProperty.display (p : TextListProperty) : String :=
  String.intercalate "," p.value

/-- Defined from the spec's words for claim C4: the escaping of one text
character, mapping backslash, comma, semicolon and newline to the
two-character sequences backslash-backslash, backslash-comma,
backslash-semicolon and backslash-n. -/
def specEscapeChar (c : Char) : List Char :=
  if c.toNat = 92 then [Char.ofNat 92, Char.ofNat 92]
  else if c.toNat = 44 then [Char.ofNat 92, Char.ofNat 44]
  else if c.toNat = 59 then [Char.ofNat 92, Char.ofNat 59]
  else if c.toNat = 10 then [Char.ofNat 92, Char.ofNat 110]
  else [c]

/-- Defined from the spec's words for claim C4: escape every character of a
text value. -/
def specEscapeText (s : String) : String :=
  ⟨s.data.foldr (fun c acc => specEscapeChar c ++ acc) []⟩

/-- Defined from the spec's words for claim C4: render a text list by
escaping each element and joining with commas. -/
def specTextListRender (p : TextListProperty) : String :=
  String.intercalate "," (p.value.map specEscapeText)

/-- Whether a text value contains none of the four characters the spec
requires to be escaped. -/
def noEscapableChar (s : String) : Prop :=
  ∀ c ∈ s.data, c.toNat ≠ 92 ∧ c.toNat ≠ 44 ∧ c.toNat ≠ 59 ∧ c.toNat ≠ 10

instance (s : String) : Decidable (noEscapableChar s) := by
  unfold noEscapableChar
  infer_instance

/-! ## DeliveryAddress (src/property.rs lines 34-81) -/

/-- `DeliveryAddress` (src/property.rs line 38). -/
structure DeliveryAddress where
  po_box : Option String
  extended_address : Option String
  street_address : Option String
  locality : Option String
  region : Option String
  postal_code : Option String
  country_name : Option String
  deriving DecidableEq

/-- `Display for DeliveryAddress` (src/property.rs lines 55-81): the seven
fields, `None` rendered as the empty string, joined by semicolons in the
`write!` format string. -/
def DeliveryAddress.display (a : DeliveryAddress) : String :=
  (a.po_box.getD "") ++ ";" ++ (a.extended_address.getD "") ++ ";"
    ++ (a.street_address.getD "") ++ ";" ++ (a.locality.getD "") ++ ";"
    ++ (a.region.getD "") ++ ";" ++ (a.postal_code.getD "") ++ ";"
    ++ (a.country_name.getD "")

/-- The seven fields of a delivery address in rendering order. -/
def DeliveryAddress.fields (a : DeliveryAddress) : List (Option String) :=
  [a.po_box, a.extended_address, a.street_address, a.locality,
   a.region, a.postal_code, a.country_name]

/-- Defined from the spec's words for claims C1 and C3: the two-digit
zero-padded decimal rendering of a number below 100. -/
def specTwoDigits (n : Nat) : List Nat := [48 + n / 10, 48 + n % 10]

/-- Acceptance condition of `UtcOffsetProperty::from_str` (the amended
claim C2): 5 bytes, a leading sign byte, the two 2-byte substrings parse as
Rust `i8` numerals, and the resulting hour and minute magnitudes pass
`UtcOffset::from_hms` validation. -/
def utcOffsetAccepted (s : List Nat) : Prop :=
  s.length = 5 ∧ (s.getD 0 0 = 43 ∨ s.getD 0 0 = 45) ∧
  ∃ hv mv : Int, parseI8 ((s.drop 1).take 2) = some hv ∧
    parseI8 ((s.drop 3).take 2) = some mv ∧ hv.natAbs ≤ 25 ∧ mv.natAbs ≤ 59

deriving instance DecidableEq for Except

/-! ## Helper lemmas -/

theorem list_len5 {α : Type} {l : List α} (h : l.length = 5) :
    ∃ a b c d e : α, l = [a, b, c, d, e] := by
  match l, h with
  | [a, b, c, d, e], _ => exact ⟨a, b, c, d, e, rfl⟩

theorem parseI8_two_digits (b c : Nat) (hb1 : 48 ≤ b) (hb2 : b ≤ 57)
    (hc1 : 48 ≤ c) (hc2 : c ≤ 57) :
    parseI8 [b, c] = some ((10 * (b - 48) + (c - 48) : Nat) : Int) := by
  have h1 : ¬ b = 43 := by omega
  have h2 : ¬ b = 45 := by omega
  have h3 : isDigitByte b = true := by simp [isDigitByte]; omega
  have h4 : isDigitByte c = true := by simp [isDigitByte]; omega
  simp [parseI8, h1, h2, h3, h4, digitsVal]
  omega

theorem parseI8_not_numeric (b : Nat) (rest : List Nat) (h1 : ¬ b = 43) (h2 : ¬ b = 45)
    (h3 : isDigitByte b = false) : parseI8 (b :: rest) = none := by
  simp [parseI8, h1, h2, h3]

theorem cont_not_numeric (b : Nat) (hb : contByte b = true) (rest : List Nat) :
    parseI8 (b :: rest) = none := by
  simp only [contByte, Bool.and_eq_true, decide_eq_true_eq] at hb
  exact parseI8_not_numeric b rest (by omega) (by omega) (by simp [isDigitByte]; omega)

theorem from_str_five (a b c d e : Nat) :
    UtcOffsetProperty.from_str [a, b, c, d, e] =
      (if contByte b then .panic
       else if ¬ (a = 43 ∨ a = 45) then .err (.InvalidUtcOffset [a, b, c, d, e])
       else if contByte d then .panic
       else
         match parseI8 [b, c] with
         | none => .err .ParseInt
         | some hv =>
           match parseI8 [d, e] with
           | none => .err .ParseInt
           | some mv =>
             match UtcOffset.from_hms (if a = 45 then -hv else hv)
                 (if a = 45 then -mv else mv) 0 with
             | .error e2 => .err e2
             | .ok off => .ok ⟨none, off, none⟩) := by
  simp only [UtcOffsetProperty.from_str]
  norm_num

theorem from_hms_ok_iff (h m : Int) :
    (∃ off, UtcOffset.from_hms h m 0 = .ok off) ↔ h.natAbs ≤ 25 ∧ m.natAbs ≤ 59 := by
  unfold UtcOffset.from_hms
  split_ifs <;> simp <;> omega

theorem from_hms_same_sign (h m : Int) (hsame : (0 ≤ h ∧ 0 ≤ m) ∨ (h ≤ 0 ∧ m ≤ 0))
    (hr1 : h.natAbs ≤ 25) (hr2 : m.natAbs ≤ 59) :
    UtcOffset.from_hms h m 0 = .ok ⟨h, m, 0⟩ := by
  unfold UtcOffset.from_hms
  rw [if_neg (by omega), if_neg (by omega), if_neg (by omega), if_neg (by omega)]
  norm_num

theorem utc_ok_iff (s : List Nat) :
    (UtcOffsetProperty.from_str s).isOk = true ↔ utcOffsetAccepted s := by
  by_cases hl : s.length = 5
  · obtain ⟨a, b, c, d, e, rfl⟩ := list_len5 hl
    rw [from_str_five]
    by_cases hcb : contByte b
    · simp [hcb, ParseOutcome.isOk, utcOffsetAccepted, cont_not_numeric b hcb]
    · by_cases hsign : a = 43 ∨ a = 45
      · by_cases hcd : contByte d
        · simp [hcb, hsign, hcd, ParseOutcome.isOk, utcOffsetAccepted,
            cont_not_numeric d hcd]
        · rcases hbc : parseI8 [b, c] with _ | hv
          · simp [hcb, hsign, hcd, hbc, ParseOutcome.isOk, utcOffsetAccepted]
          · rcases hde : parseI8 [d, e] with _ | mv
            · simp [hcb, hsign, hcd, hbc, hde, ParseOutcome.isOk, utcOffsetAccepted]
            · have habs : ∀ x : Int, (if a = 45 then -x else x).natAbs = x.natAbs := by
                intro x; split <;> simp
              rcases hfm : UtcOffset.from_hms (if a = 45 then -hv else hv)
                  (if a = 45 then -mv else mv) 0 with e2 | off
              · have hnot : ¬ (hv.natAbs ≤ 25 ∧ mv.natAbs ≤ 59) := by
                  intro hb2
                  obtain ⟨off, hoff⟩ := (from_hms_ok_iff (if a = 45 then -hv else hv)
                    (if a = 45 then -mv else mv)).mpr (by rw [habs, habs]; exact hb2)
                  rw [hfm] at hoff
                  simp at hoff
                simp only [if_neg hcb, if_neg (not_not_intro hsign), if_neg hcd, hfm]
                constructor
                · intro hcontra; simp [ParseOutcome.isOk] at hcontra
                · rintro ⟨-, -, hv2, mv2, hbc2, hde2, hha, hma⟩
                  simp only [List.drop_succ_cons, List.drop_zero, List.take_succ_cons,
                    List.take_zero] at hbc2 hde2
                  rw [hbc] at hbc2; rw [hde] at hde2
                  injection hbc2 with h1; injection hde2 with h2
                  subst h1; subst h2
                  exact absurd ⟨hha, hma⟩ hnot
              · have hok : ∃ off2, UtcOffset.from_hms (if a = 45 then -hv else hv)
                    (if a = 45 then -mv else mv) 0 = .ok off2 := ⟨off, hfm⟩
                rw [from_hms_ok_iff, habs, habs] at hok
                simp [hcb, hsign, hcd, hbc, hde, hfm, ParseOutcome.isOk,
                  utcOffsetAccepted, hok]
      · simp [hcb, hsign, ParseOutcome.isOk, utcOffsetAccepted]
  · simp [UtcOffsetProperty.from_str, hl, ParseOutcome.isOk, utcOffsetAccepted]

theorem padTwo_eq (n : Nat) (h : n < 100) :
    (if n < 10 then 48 :: natDecimalBytes n else natDecimalBytes n) = specTwoDigits n := by
  have key : ∀ m, m < 100 →
      (if m < 10 then 48 :: natDecimalBytes m else natDecimalBytes m) = specTwoDigits m := by
    decide
  exact key n h

theorem display_shape (p : UtcOffsetProperty)
    (hh : p.value.hours.natAbs < 100) (hm : p.value.minutes.natAbs < 100) :
    p.display = (if p.value.hours < 0 then 45 else 43) ::
      (specTwoDigits p.value.hours.natAbs ++ specTwoDigits p.value.minutes.natAbs) := by
  show (match p.value.as_hms with
    | (h, m, _) =>
      let sign : Nat := if 0 ≤ h then 43 else 45
      let ha := h.natAbs
      let ma := m.natAbs
      let hb := if ha < 10 then 48 :: natDecimalBytes ha else natDecimalBytes ha
      let mb := if ma < 10 then 48 :: natDecimalBytes ma else natDecimalBytes ma
      sign :: (hb ++ mb)) = _
  simp only [UtcOffset.as_hms]
  rw [padTwo_eq _ hh, padTwo_eq _ hm]
  congr 1
  rcases lt_or_ge p.value.hours 0 with hs | hs
  · rw [if_neg (by omega), if_pos hs]
  · rw [if_pos (by omega), if_neg (by omega)]

theorem sex_error_shape (t : String) (e : Error) (h : Sex.from_str t = .error e) :
    e = .UnknownSex t := by
  unfold Sex.from_str at h
  split_ifs at h
  all_goals simp_all

theorem splitnTwoSemi_ne_nil (s : String) : ¬ splitnTwoSemi s = [] := by
  unfold splitnTwoSemi
  rcases breakSemi s.data with ⟨p, _ | r⟩
  all_goals simp

theorem breakSemi_eq (cs : List Char) :
    breakSemi cs = (cs.takeWhile (fun c => ¬ (c = ';')),
      match cs.dropWhile (fun c => ¬ (c = ';')) with
      | [] => none
      | _ :: r => some r) := by
  induction cs with
  | nil => simp [breakSemi]
  | cons c cs ih =>
      by_cases h : c = ';'
      · simp [breakSemi, h, List.takeWhile_cons, List.dropWhile_cons]
      · simp [breakSemi, h, List.takeWhile_cons, List.dropWhile_cons, ih]

theorem escape_id_of_clean (l : List Char) (h : ∀ c ∈ l, c.toNat ≠ 92 ∧ c.toNat ≠ 44
    ∧ c.toNat ≠ 59 ∧ c.toNat ≠ 10) :
    l.foldr (fun c acc => specEscapeChar c ++ acc) [] = l := by
  induction l with
  | nil => rfl
  | cons c cs ih =>
      have hc := h c (List.mem_cons_self c cs)
      simp only [List.foldr_cons, ih (fun x hx => h x (List.mem_cons_of_mem c hx))]
      simp [specEscapeChar, hc.1, hc.2.1, hc.2.2.1, hc.2.2.2]

/-! ## Claims -/

/-- Claim C1 is false as stated: the input `-0000` parses successfully but
re-renders as `+0000`, because the rendered sign comes from the hour
component, which is zero.  (Byte 45 is the minus sign, 43 the plus sign,
48 the digit zero.) -/
theorem utcOffset_roundtrip_cex :
    UtcOffsetProperty.from_str [45, 48, 48, 48, 48] = .ok ⟨none, ⟨0, 0, 0⟩, none⟩
      ∧ utcOffsetReserialize [45, 48, 48, 48, 48] = some [43, 48, 48, 48, 48]
      ∧ [43, 48, 48, 48, 48] ≠ [45, 48, 48, 48, 48] := by
  exact ⟨by decide, by decide, by decide⟩

/-- Claim C1, amended: for every input of the strict shape
`[+-]\d\{2\}\d\{2\}` that `UtcOffsetProperty::from_str` accepts, rendering
the parsed property with `Display` yields the input again, unless the sign
is `-` and the hour digits are `00` (in which case the rendered sign
becomes `+`). -/
theorem utcOffset_roundtrip_amended (s : List Nat) (p : UtcOffsetProperty)
    (hpat : specUtcOffsetPattern s = true)
    (hok : UtcOffsetProperty.from_str s = .ok p)
    (hx : ¬ (s.getD 0 0 = 45 ∧ s.getD 1 0 = 48 ∧ s.getD 2 0 = 48)) :
    p.display = s := by
  have hl : s.length = 5 := by
    simp [specUtcOffsetPattern] at hpat
    omega
  obtain ⟨a, b, c, d, e, rfl⟩ := list_len5 hl
  simp [specUtcOffsetPattern, isDigitByte] at hpat
  obtain ⟨⟨⟨⟨hsign, hb1, hb2⟩, hc1, hc2⟩, hd1, hd2⟩, he1, he2⟩ := hpat
  simp only [List.getD, List.get?, Option.getD_some] at hx
  have hcb : ¬ contByte b = true := by simp [contByte]; omega
  have hcd : ¬ contByte d = true := by simp [contByte]; omega
  rw [from_str_five, if_neg hcb, if_neg (not_not_intro hsign), if_neg hcd,
    parseI8_two_digits b c hb1 hb2 hc1 hc2, parseI8_two_digits d e hd1 hd2 he1 he2] at hok
  set X : Int := ((10 * (b - 48) + (c - 48) : Nat) : Int) with hX
  set Y : Int := ((10 * (d - 48) + (e - 48) : Nat) : Int) with hY
  rcases hsign with h43 | h45
  · subst h43
    norm_num at hok
    rcases hfm : UtcOffset.from_hms X Y 0 with e2 | off
    · rw [hfm] at hok; exact absurd hok (by simp)
    · have hbs := (from_hms_ok_iff _ _).mp ⟨off, hfm⟩
      rw [from_hms_same_sign _ _ (Or.inl ⟨by positivity, by positivity⟩) hbs.1 hbs.2] at hok
      norm_num at hok
      subst hok
      have hXa : X.natAbs = 10 * (b - 48) + (c - 48) := by rw [hX]; exact Int.natAbs_ofNat _
      have hYa : Y.natAbs = 10 * (d - 48) + (e - 48) := by rw [hY]; exact Int.natAbs_ofNat _
      rw [display_shape _ (by simp only; omega) (by simp only; omega)]
      simp only
      rw [if_neg (by omega)]
      simp [specTwoDigits, hXa, hYa]
      refine ⟨?_, ?_, ?_, ?_⟩ <;> omega
  · subst h45
    norm_num at hok
    have hbc2 : ¬ (b = 48 ∧ c = 48) := fun hcc => hx ⟨rfl, hcc.1, hcc.2⟩
    rcases hfm : UtcOffset.from_hms (-X) (-Y) 0 with e2 | off
    · rw [hfm] at hok; exact absurd hok (by simp)
    · have hbs := (from_hms_ok_iff _ _).mp ⟨off, hfm⟩
      rw [Int.natAbs_neg, Int.natAbs_neg] at hbs
      rw [from_hms_same_sign _ _ (Or.inr ⟨by omega, by omega⟩)
        (by rw [Int.natAbs_neg]; exact hbs.1) (by rw [Int.natAbs_neg]; exact hbs.2)] at hok
      norm_num at hok
      subst hok
      have hXa : X.natAbs = 10 * (b - 48) + (c - 48) := by rw [hX]; exact Int.natAbs_ofNat _
      have hYa : Y.natAbs = 10 * (d - 48) + (e - 48) := by rw [hY]; exact Int.natAbs_ofNat _
      rw [display_shape _ (by simp only [Int.natAbs_neg]; omega)
        (by simp only [Int.natAbs_neg]; omega)]
      simp only
      rw [if_pos (by omega)]
      simp [specTwoDigits, Int.natAbs_neg, hXa, hYa]
      refine ⟨?_, ?_, ?_, ?_⟩ <;> omega

/-- Witness for the amended claim C1 at the concrete accepted input
`-0500`. -/
theorem utcOffset_roundtrip_amended_witness :
    UtcOffsetProperty.display ⟨none, ⟨-5, 0, 0⟩, none⟩ = [45, 48, 53, 48, 48] :=
  utcOffset_roundtrip_amended [45, 48, 53, 48, 48] ⟨none, ⟨-5, 0, 0⟩, none⟩
    (by decide) (by decide) (by decide)

/-- Claim C2 is false as stated, in both directions: `+9900` matches the
pattern `[+-]\d\{2\}\d\{2\}` but is rejected (hour 99 fails the
`UtcOffset::from_hms` range check), while `++000` does not match the
pattern but parses successfully (Rust `i8` parsing accepts an inner
sign). -/
theorem utcOffset_boundary_cex :
    specUtcOffsetPattern [43, 57, 57, 48, 48] = true
      ∧ (UtcOffsetProperty.from_str [43, 57, 57, 48, 48]).isOk = false
      ∧ UtcOffsetProperty.from_str [43, 43, 48, 48, 48] = .ok ⟨none, ⟨0, 0, 0⟩, none⟩
      ∧ specUtcOffsetPattern [43, 43, 48, 48, 48] = false := by
  exact ⟨by decide, by decide, by decide, by decide⟩

/-- Claim C2, amended: `UtcOffsetProperty::from_str` succeeds exactly when
the input is 5 bytes, starts with `+` or `-`, its byte ranges 1..3 and 3..5
parse as Rust `i8` numerals, and the hour and minute magnitudes are at most
25 and 59.  The claim's concrete instances hold: `+1200` parses to +12:00,
`-0500` to -05:00, and `0500` fails. -/
theorem utcOffset_boundary_amended :
    (∀ s : List Nat, (UtcOffsetProperty.from_str s).isOk = true ↔ utcOffsetAccepted s)
      ∧ UtcOffsetProperty.from_str [43, 49, 50, 48, 48] = .ok ⟨none, ⟨12, 0, 0⟩, none⟩
      ∧ UtcOffsetProperty.from_str [45, 48, 53, 48, 48] = .ok ⟨none, ⟨-5, 0, 0⟩, none⟩
      ∧ UtcOffsetProperty.from_str [48, 53, 48, 48]
          = .err (.InvalidUtcOffset [48, 53, 48, 48]) := by
  exact ⟨utc_ok_iff, by decide, by decide, by decide⟩

/-- Claim C3 is false as stated: the valid offset -00:30 (built by
`UtcOffset::from_hms(0, -30, 0)`) is negative, yet it renders as `+0030`
because the sign is taken from the hour component alone. -/
theorem utcOffset_display_sign_cex :
    UtcOffset.from_hms 0 (-30) 0 = .ok ⟨0, -30, 0⟩
      ∧ UtcOffset.totalSeconds ⟨0, -30, 0⟩ < 0
      ∧ UtcOffsetProperty.display ⟨none, ⟨0, -30, 0⟩, none⟩ = [43, 48, 48, 51, 48]
      ∧ ¬ [43, 48, 48, 51, 48].getD 0 0 = 45 := by
  exact ⟨by decide, by decide, by decide, by decide⟩

/-- Claim C3, amended: for every `UtcOffsetProperty` within the component
bounds the `time` crate guarantees, `Display` renders a sign byte that is
`-` exactly when the HOUR COMPONENT is negative (not when the offset is
negative), followed by the two-digit zero-padded hour and minute
magnitudes. -/
theorem utcOffset_display_amended (p : UtcOffsetProperty)
    (hh : p.value.hours.natAbs ≤ 25) (hm : p.value.minutes.natAbs ≤ 59) :
    p.display = (if p.value.hours < 0 then 45 else 43) ::
      (specTwoDigits p.value.hours.natAbs ++ specTwoDigits p.value.minutes.natAbs) :=
  display_shape p (by omega) (by omega)

/-- Witness for the amended claim C3 at the concrete offset -05:30. -/
theorem utcOffset_display_amended_witness :
    UtcOffsetProperty.display ⟨none, ⟨-5, -30, 0⟩, none⟩ =
      (if (-5 : Int) < 0 then 45 else 43) ::
        (specTwoDigits (Int.natAbs (-5)) ++ specTwoDigits (Int.natAbs (-30))) :=
  utcOffset_display_amended ⟨none, ⟨-5, -30, 0⟩, none⟩ (by decide) (by decide)

/-- Claim C4 is false as stated: the element `a;b` contains a semicolon,
which the claim says is rendered escaped as backslash-semicolon, but the
`Display` implementation joins the elements verbatim. -/
theorem textList_display_cex :
    TextListProperty.display ⟨none, [String.mk [Char.ofNat 97, Char.ofNat 59, Char.ofNat 98]], none⟩
        = String.mk [Char.ofNat 97, Char.ofNat 59, Char.ofNat 98]
      ∧ TextListProperty.display ⟨none, [String.mk [Char.ofNat 97, Char.ofNat 59, Char.ofNat 98]], none⟩
        ≠ specTextListRender ⟨none, [String.mk [Char.ofNat 97, Char.ofNat 59, Char.ofNat 98]], none⟩ := by
  exact ⟨by decide, by decide⟩

/-- Claim C4, amended: the `Display` implementation renders the list
comma-joined with NO escaping; it therefore agrees with the spec's escaped
rendering exactly on lists whose elements contain none of backslash,
comma, semicolon and newline. -/
theorem textList_display_amended (p : TextListProperty)
    (h : ∀ x ∈ p.value, noEscapableChar x) :
    p.display = specTextListRender p := by
  unfold TextListProperty.display specTextListRender
  congr 1
  have hmap : p.value.map specEscapeText = p.value.map id := by
    apply List.map_congr_left
    intro x hx
    have hclean := h x hx
    unfold noEscapableChar at hclean
    unfold specEscapeText
    cases x with
    | mk l =>
        simp only [id_eq]
        congr 1
        exact escape_id_of_clean l hclean
  rw [hmap, List.map_id]

/-- Witness for the amended claim C4 on a two-element list free of
escapable characters. -/
theorem textList_display_amended_witness :
    TextListProperty.display ⟨none, ["ab", "cd"], none⟩
      = specTextListRender ⟨none, ["ab", "cd"], none⟩ :=
  textList_display_amended ⟨none, ["ab", "cd"], none⟩ (by decide)

/-- Claim C5: `Kind::from_str` succeeds exactly on the four lowercase
tokens, mapping each to its variant, and fails with `UnknownKind` carrying
the input on everything else (stated via lookup in the token table). -/
theorem kind_from_str_characterization (s : String) :
    Kind.from_str s =
      (match specKindTable.lookup s with
       | some k => .ok k
       | none => .error (.UnknownKind s)) := by
  simp only [Kind.from_str, specKindTable, List.lookup]
  split_ifs with h1 h2 h3 h4
  · subst h1; rfl
  · subst h2; rfl
  · subst h3; rfl
  · subst h4; rfl
  · have e1 : (s == "individual") = false := by rw [beq_eq_false_iff_ne]; exact h1
    have e2 : (s == "group") = false := by rw [beq_eq_false_iff_ne]; exact h2
    have e3 : (s == "org") = false := by rw [beq_eq_false_iff_ne]; exact h3
    have e4 : (s == "location") = false := by rw [beq_eq_false_iff_ne]; exact h4
    simp [e1, e2, e3, e4]

/-- Claim C6: `Sex::from_str` succeeds exactly on the empty string and the
five single uppercase letters, and fails with `UnknownSex` carrying the
input on everything else (stated via lookup in the token table). -/
theorem sex_from_str_characterization (s : String) :
    Sex.from_str s =
      (match specSexTable.lookup s with
       | some x => .ok x
       | none => .error (.UnknownSex s)) := by
  simp only [Sex.from_str, specSexTable, List.lookup]
  split_ifs with h1 h2 h3 h4 h5 h6
  · subst h1; rfl
  · subst h2; rfl
  · subst h3; rfl
  · subst h4; rfl
  · subst h5; rfl
  · subst h6; rfl
  · have e1 : (s == "") = false := by rw [beq_eq_false_iff_ne]; exact h1
    have e2 : (s == "M") = false := by rw [beq_eq_false_iff_ne]; exact h2
    have e3 : (s == "F") = false := by rw [beq_eq_false_iff_ne]; exact h3
    have e4 : (s == "O") = false := by rw [beq_eq_false_iff_ne]; exact h4
    have e5 : (s == "N") = false := by rw [beq_eq_false_iff_ne]; exact h5
    have e6 : (s == "U") = false := by rw [beq_eq_false_iff_ne]; exact h6
    simp [e1, e2, e3, e4, e5, e6]

/-- Claim C7: `Gender::from_str` equals the spec's description: empty
input gives sex `None` and no identity; otherwise the input is split at
the first semicolon, the prefix is parsed by the `Sex` rules, the
remainder after the first semicolon (when one exists) is kept verbatim as
the identity, and the whole parse fails exactly when the sex prefix
does. -/
theorem gender_from_str_characterization (s : String) :
    Gender.from_str s = specGenderFromStr s := by
  by_cases h : s = ""
  · subst h; rfl
  · simp only [Gender.from_str, specGenderFromStr, h, if_false, splitnTwoSemi, breakSemi_eq]
    cases hdw : s.data.dropWhile (fun c => ¬ (c = ';')) with
    | nil => simp
    | cons c r => simp

/-- Claim C8: the `Display` implementation of `DeliveryAddress` renders
the seven fields in declaration order, `None` as the empty string, joined
by literal semicolons. -/
theorem delivery_address_display (a : DeliveryAddress) :
    a.display = String.intercalate ";" (a.fields.map (fun o => o.getD "")) := by
  rfl

/-- Claim C9: the code panics on the 5-byte input `\xC3\xA9abc` (the
string with the two-byte character 0xE9 followed by `abc`): its byte
length is 5, so the length guard passes, but `&s[0..1]` splits the leading
character. -/
theorem utcOffset_multibyte_panic :
    [195, 169, 97, 98, 99].length = 5
      ∧ UtcOffsetProperty.from_str [195, 169, 97, 98, 99] = .panic := by
  exact ⟨by decide, by decide⟩

/-- Claim C10: `Gender::from_str` never returns `Error::NoSex`: the empty
input is handled before the split, and `splitn` on a non-empty string
always yields a first piece. -/
theorem gender_never_nosex (s : String) : isNoSexError (Gender.from_str s) = false := by
  unfold Gender.from_str
  split_ifs with h
  · rfl
  · rcases hsp : splitnTwoSemi s with _ | ⟨sexStr, rest⟩
    · exact absurd hsp (splitnTwoSemi_ne_nil s)
    · rcases hsx : Sex.from_str sexStr with e | sx
      · have he := sex_error_shape sexStr e hsx
        subst he
        simp [hsp, hsx, isNoSexError]
      · rcases rest with _ | ⟨idv, r⟩ <;> simp [hsp, hsx, isNoSexError]

end VCard4
